import Mathlib

/-!
Verification of the cuse-maru OSS emulation core (src/cuse-maru/cuse-maru.c)
against its natural-language specification.

The per-slot record `struct cuse_stream_info` is embedded as `StreamInfo`.
The hardware transport (libmaru) is external; each embedded operation takes
the transport's responses as explicit oracle arguments.  Machine integers are
modelled as `Nat`/`Int`; the OSS packed control words are non-negative, so the
C `int` bit operations on them coincide with the `Nat` operations used here.

The stream handle field is modelled as `Option Nat`: `none` stands for the
sentinel `LIBMARU_STREAM_MASTER` ("unbound"), `some s` for a bound hardware
stream handle.  The libmaru header defining the sentinel's numeric value is
not part of this repository; the specification describes it only as "a
sentinel unbound value" and treats the zero-initialized slot as unbound, which
the `Option` embedding captures directly.
-/

namespace CuseMaru

/-- Linux errno values used by the handlers. -/
def EPIPE : Nat := 32

def EAGAIN : Nat := 11

def EIO : Nat := 5

def EBUSY : Nat := 16

def EINVAL : Nat := 22

/-- Linux poll event masks used by `maru_poll`. -/
def POLLOUT : Nat := 4

def POLLHUP : Nat := 16

/-- Embedding of `struct cuse_stream_info` (the fields the verified operations
touch).  `stream = none` models `stream == LIBMARU_STREAM_MASTER` (unbound);
`ph` is the outstanding poll handle, identified by an opaque `Nat` token.
The default values give the zero-initialized record (`memset(..., 0, ...)`);
for `stream`, `none` is the unbound sentinel the spec assigns to that state. -/
structure StreamInfo where
  active : Bool := false
  sample_rate : Nat := 0
  channels : Nat := 0
  bits : Nat := 0
  stream : Option Nat := none
  fragsize : Nat := 0
  frags : Nat := 0
  write_cnt : Nat := 0
  nonblock : Bool := false
  error : Bool := false
  vol : Int := 0
  ph : Option Nat := none
  deriving Repr, DecidableEq

/-- The zero-initialized slot record produced by `memset(stream_info, 0, ...)`. -/
def StreamInfo.zero : StreamInfo := {}

/-- Transport responses consumed by one `maru_write` call:
`findStream` is `maru_find_available_stream` (`none` models a negative
return), `openOk` is whether `maru_stream_open` returned `LIBMARU_SUCCESS`,
`writeAvail` is `maru_stream_write_avail`, and `hwWrite n` is the byte count
`maru_stream_write` returns when `n` bytes are submitted. -/
structure WriteOracle where
  findStream : Option Nat
  openOk : Bool
  writeAvail : Nat
  hwWrite : Nat → Nat

/-- Embedding of `init_stream`: asks the transport for an available stream,
opens it with the slot's geometry, and on success records the handle.
Failure leaves the slot untouched (`none`). -/
def init_stream (o : WriteOracle) (st : StreamInfo) : Option StreamInfo :=
  match o.findStream with
  | none => none
  | some s => if o.openOk then some { st with stream := some s } else none

/-- Reply issued by `maru_write`: `fuse_reply_err` or `fuse_reply_write`. -/
inductive WriteReply where
  | err (errno : Nat)
  | wrote (n : Nat)
  deriving Repr, DecidableEq

/-- Result of one `maru_write` call: the updated slot, the byte count passed
to `maru_stream_write` (if the transport write was reached), and the reply. -/
structure WriteResult where
  st : StreamInfo
  submitted : Option Nat
  reply : WriteReply

/-- Embedding of `maru_write`.  `openNonblock` is `info->flags & O_NONBLOCK`
from the open file; `size` the request size.  Follows the source: sticky
error check, empty write, lazy binding, non-blocking clamp to a whole number
of frames of the available space, `EAGAIN` on a zero clamp, then the
transport write with `EIO` on a zero result and `write_cnt` accounting
otherwise. -/
def maru_write (o : WriteOracle) (openNonblock : Bool) (st : StreamInfo)
    (size : Nat) : WriteResult :=
  if st.error then ⟨st, none, .err EPIPE⟩
  else if size = 0 then ⟨st, none, .wrote 0⟩
  else
    match (if st.stream = none then init_stream o st else some st) with
    | none => ⟨st, none, .err EBUSY⟩
    | some st1 =>
      let nonblock := openNonblock || st1.nonblock
      let to_write :=
        if nonblock then
          let frame_size := st1.channels * st1.bits / 8
          let tw := o.writeAvail / frame_size * frame_size
          if tw > size then size else tw
        else size
      if to_write = 0 then ⟨st1, none, .err EAGAIN⟩
      else
        let ret := o.hwWrite to_write
        if ret = 0 then ⟨st1, some to_write, .err EIO⟩
        else ⟨{ st1 with write_cnt := st1.write_cnt + ret }, some to_write,
              .wrote ret⟩

/-- Reply issued by an ioctl handler: `fuse_reply_err`, `IOCTL_RETURN` of a
packed integer word, `IOCTL_RETURN_NULL`, or the `audio_buf_info` record of
`SNDCTL_DSP_GETOSPACE` (`bytes`, `fragments`, `fragsize`, `fragstotal`). -/
inductive IoctlReply where
  | err (errno : Nat)
  | retWord (w : Nat)
  | retNull
  | retOspace (bytes fragments fragsize fragstotal : Nat)
  deriving Repr, DecidableEq

/-- Modelled from the spec: `next_pot` is declared in `utils.h`, which is not
part of this repository's sources; the specification describes it as rounding
its argument up to the next power of two that is at least the argument.  This
is `2 ^ Nat.clog 2 n`. -/
def next_pot (n : Nat) : Nat := 2 ^ Nat.clog 2 n

/-- Embedding of the `SNDCTL_DSP_SETFRAGMENT` case of `maru_ioctl`.  `i` is
the packed request word (a non-negative C `int`, read as a `Nat`):
`frags = (i >> 16) & 0xffff`, `fragsize = 1 << (i & 0xffff)`.  Bound slots
and invalid geometry are rejected with `EINVAL`; otherwise `fragsize` is
stored verbatim and `frags` rounded up to a power of two. -/
def dsp_setfragment (st : StreamInfo) (i : Nat) : StreamInfo × IoctlReply :=
  if st.stream ≠ none then (st, .err EINVAL)
  else
    let frags := (i >>> 16) &&& 0xffff
    let fragsize := 1 <<< (i &&& 0xffff)
    if fragsize < 512 ∨ frags < 2 then (st, .err EINVAL)
    else ({ st with fragsize := fragsize, frags := next_pot frags }, .retWord i)

/-- Embedding of the `SNDCTL_DSP_GETOSPACE` case of `maru_ioctl`.
`writeAvail` is the transport's `maru_stream_write_avail` answer, consulted
only when the slot is bound. -/
def dsp_getospace (writeAvail : Nat) (st : StreamInfo) :
    StreamInfo × IoctlReply :=
  let wa := if st.stream ≠ none then writeAvail
            else st.fragsize * st.frags - 1
  (st, .retOspace wa (wa / st.fragsize) st.fragsize st.frags)

/-- Embedding of the `SNDCTL_DSP_RESET` / `SNDCTL_DSP_HALT` case of
`maru_ioctl`: when bound, the hardware stream is closed, the handle reset to
the sentinel and `write_cnt` zeroed; always acknowledged with a null reply. -/
def dsp_reset (st : StreamInfo) : StreamInfo × IoctlReply :=
  if st.stream ≠ none then
    ({ st with stream := none, write_cnt := 0 }, .retNull)
  else (st, .retNull)

/-- Embedding of the `SNDCTL_DSP_NONBLOCK` case of `maru_ioctl`. -/
def dsp_nonblock (st : StreamInfo) : StreamInfo × IoctlReply :=
  ({ st with nonblock := true }, .retNull)

/-- Embedding of `set_volume`.  `minv`/`maxv` are `g_state.min_volume` /
`g_state.max_volume`; `mute` models `LIBMARU_VOLUME_MUTE`, whose numeric
value lives in the libmaru header outside this repository (the spec calls it
"an explicit mute value").  `hwOk` is whether `maru_stream_set_volume`
returned `LIBMARU_SUCCESS`.  Returns the updated slot, the success flag, and
the native volume submitted to the transport. -/
def set_volume (minv maxv mute : Int) (hwOk : Bool) (st : StreamInfo)
    (volume : Int) : StreamInfo × Bool × Int :=
  let i := volume
  let vol : Int :=
    if i > 0 then (maxv * i + minv * (100 - i)).tdiv 100 else mute
  let vol : Int := if vol < minv ∧ i > 0 then minv
                   else if vol > maxv then maxv else vol
  if hwOk then ({ st with vol := vol }, true, vol)
  else (st, false, vol)

/-- Embedding of `read_volume`.  `hwRes` is the transport's answer to
`maru_stream_get_volume` (`none` on failure). -/
def read_volume (minv maxv : Int) (hwRes : Option Int) (st : StreamInfo) :
    StreamInfo × Bool :=
  match hwRes with
  | none => (st, false)
  | some cur =>
    let i : Int :=
      if minv ≥ maxv then 100
      else if cur < minv then 0
      else if cur > maxv then 100
      else (100 * (cur - minv)).tdiv (maxv - minv)
    ({ st with vol := i }, true)

/-- Result of a volume ioctl: the slot, the number of times `g_state.lock` is
still held when the handler replies (entry depth plus acquisitions minus
releases), the native volume passed to the transport (set path), and the
reply. -/
structure VolIoctlResult where
  st : StreamInfo
  lock : Nat
  submitted : Option Int
  reply : IoctlReply

/-- Embedding of the `SNDCTL_DSP_SETPLAYVOL` case of `maru_ioctl`, tracking
the global-mutex depth: the handler locks `g_state.lock`, calls `set_volume`
with the low byte of the packed word, and on failure replies `EIO` and
breaks out of the switch without an unlock — exactly as the source does. -/
def dsp_setplayvol (minv maxv mute : Int) (hwOk : Bool) (st : StreamInfo)
    (i : Nat) (lock : Nat) : VolIoctlResult :=
  let left := i &&& 0xff
  let lock := lock + 1
  match set_volume minv maxv mute hwOk st (left : Int) with
  | (st1, ok, vol) =>
    if ok then
      ⟨st1, lock - 1, some vol, .retWord ((left <<< 8) ||| left)⟩
    else ⟨st1, lock, some vol, .err EIO⟩

/-- The reply word `i = vol; i |= i << 8` of `SNDCTL_DSP_GETPLAYVOL`, for the
percentage in 0..100 that `read_volume` stores. -/
def percentWord (v : Int) : Nat := (v.toNat <<< 8) ||| v.toNat

/-- Embedding of the `SNDCTL_DSP_GETPLAYVOL` case of `maru_ioctl`, tracking
the global-mutex depth exactly as the source does: the failure path replies
`EIO` and breaks without an unlock. -/
def dsp_getplayvol (minv maxv : Int) (hwRes : Option Int) (st : StreamInfo)
    (lock : Nat) : VolIoctlResult :=
  let lock := lock + 1
  match read_volume minv maxv hwRes st with
  | (st1, ok) =>
    if ok then ⟨st1, lock - 1, none, .retWord (percentWord st1.vol)⟩
    else ⟨st1, lock, none, .err EIO⟩

/-- Embedding of `maru_update_pollhandle`: installs the new handle and
returns the previously stored handle for destruction (if any). -/
def maru_update_pollhandle (st : StreamInfo) (ph : Option Nat) :
    StreamInfo × List Nat :=
  let tmp := st.ph
  let st := { st with ph := ph }
  match tmp with
  | some h => (st, [h])
  | none => (st, [])

/-- Result of `maru_poll`: updated slot, the poll handles destroyed by the
call, and the event mask replied via `fuse_reply_poll`. -/
structure PollResult where
  st : StreamInfo
  destroyed : List Nat
  reply : Nat

/-- Embedding of `maru_poll`: swap in the new handle, then reply `POLLHUP` on
sticky error, `POLLOUT` when unbound or when the transport's availability is
at least one fragment, and `0` otherwise.  `writeAvail` is the transport's
`maru_stream_write_avail` answer. -/
def maru_poll (writeAvail : Nat) (st : StreamInfo) (ph : Option Nat) :
    PollResult :=
  match maru_update_pollhandle st ph with
  | (st1, destroyed) =>
    if st1.error then ⟨st1, destroyed, POLLHUP⟩
    else if st1.stream = none ∨ writeAvail ≥ st1.fragsize then
      ⟨st1, destroyed, POLLOUT⟩
    else ⟨st1, destroyed, 0⟩

/-- Result of `maru_release`: the slot after the `memset` to zero, the list
of stream-handle arguments passed to `maru_stream_close` (`none` is the
sentinel master handle), the destroyed poll handles, and the errno replied
(`0` = success). -/
structure ReleaseResult where
  st : StreamInfo
  closed : List (Option Nat)
  destroyed : List Nat
  errno : Nat

/-- Embedding of `maru_release`: `maru_stream_close` is called
unconditionally on the slot's current stream handle (even the unbound
sentinel), any outstanding poll handle is destroyed, the record is zeroed,
and success is always reported. -/
def maru_release (st : StreamInfo) : ReleaseResult :=
  ⟨StreamInfo.zero, [st.stream],
   (match st.ph with | some h => [h] | none => []), 0⟩

/-- The slot-mutating operations of the verified surface, with each
operation's transport oracle inlined. -/
inductive Op where
  | write (o : WriteOracle) (openNonblock : Bool) (size : Nat)
  | reset
  | setfragment (i : Nat)
  | getospace (avail : Nat)
  | setnonblock
  | setplayvol (minv maxv mute : Int) (hwOk : Bool) (i : Nat)
  | getplayvol (minv maxv : Int) (hwRes : Option Int)
  | poll (avail : Nat) (ph : Option Nat)
  | release

/-- State transition of one operation on a slot (the slot component of the
corresponding embedded handler). -/
def step (op : Op) (st : StreamInfo) : StreamInfo :=
  match op with
  | .write o nb size => (maru_write o nb st size).st
  | .reset => (dsp_reset st).1
  | .setfragment i => (dsp_setfragment st i).1
  | .getospace avail => (dsp_getospace avail st).1
  | .setnonblock => (dsp_nonblock st).1
  | .setplayvol minv maxv mute hwOk i =>
      (dsp_setplayvol minv maxv mute hwOk st i 0).st
  | .getplayvol minv maxv hwRes => (dsp_getplayvol minv maxv hwRes st 0).st
  | .poll avail ph => (maru_poll avail st ph).st
  | .release => (maru_release st).st

/-! ### Concrete slots and oracles used by witnesses and counterexamples -/

/-- A bound slot with the default open parameters (2 channels, 16 bits,
48 kHz) and the default hardware geometry. -/
def exBound : StreamInfo :=
  { active := true, sample_rate := 48000, channels := 2, bits := 16,
    stream := some 0, fragsize := 16384, frags := 4 }

/-- An unbound slot as `maru_open` leaves it (fragment geometry configured,
stream still the sentinel). -/
def exUnbound : StreamInfo :=
  { active := true, sample_rate := 48000, channels := 2, bits := 16,
    stream := none, fragsize := 2048, frags := 8 }

/-- A transport that accepts every submitted byte and reports 4096 bytes of
space. -/
def exAcceptAll : WriteOracle := ⟨some 1, true, 4096, fun n => n⟩

/-- A transport whose write call accepts zero bytes. -/
def exAcceptNone : WriteOracle := ⟨some 1, true, 4096, fun _ => 0⟩

/-! ### Helper lemmas -/

/-- The C clamp `if (tw > size) tw = size` computes the minimum. -/
theorem ite_gt_eq_min (a b : Nat) : (if b > a then a else b) = min a b := by
  rw [Nat.min_def]; split <;> split <;> omega

/-- Under the binding hypotheses of a write, the lazy-binding step of
`maru_write` yields a slot that agrees with the original on every field but
the stream handle, and is bound. -/
theorem bind_step_spec (o : WriteOracle) (st : StreamInfo)
    (hbound : st.stream ≠ none ∨ (o.findStream ≠ none ∧ o.openOk = true)) :
    ∃ st1, (if st.stream = none then init_stream o st else some st) = some st1
      ∧ st1.channels = st.channels ∧ st1.bits = st.bits
      ∧ st1.nonblock = st.nonblock ∧ st1.error = st.error
      ∧ st1.write_cnt = st.write_cnt ∧ st1.stream ≠ none := by
  cases h : st.stream with
  | some s =>
    refine ⟨st, by simp [h], rfl, rfl, rfl, rfl, rfl, by simp [h]⟩
  | none =>
    rcases hbound with hb | ⟨hf, ho⟩
    · exact absurd h hb
    · cases hf' : o.findStream with
      | none => exact absurd hf' hf
      | some s =>
        exact ⟨{ st with stream := some s },
          by simp [h, init_stream, hf', ho], rfl, rfl, rfl, rfl, rfl,
          by simp⟩

/-! ### C1 -/

/-- C1: a write of `N > 0` bytes on a non-errored slot in non-blocking mode
(open-mode `O_NONBLOCK` or sticky `nonblock`), on a slot that is bound or
whose lazy binding succeeds, submits exactly
`min N (A / frame * frame)` bytes to the transport where `A` is the reported
write-availability and `frame = channels * bits / 8`; a zero clamp fails with
`EAGAIN` and submits nothing, and if the transport accepts the whole
submission the call reports exactly that many bytes written. -/
theorem nonblocking_write_clamps (o : WriteOracle) (onb : Bool)
    (st : StreamInfo) (size : Nat)
    (herr : st.error = false) (hsz : 0 < size)
    (hnb : onb = true ∨ st.nonblock = true)
    (hbound : st.stream ≠ none ∨ (o.findStream ≠ none ∧ o.openOk = true)) :
    (min size (o.writeAvail / (st.channels * st.bits / 8) *
        (st.channels * st.bits / 8)) = 0 →
      (maru_write o onb st size).reply = .err EAGAIN ∧
      (maru_write o onb st size).submitted = none)
    ∧ (0 < min size (o.writeAvail / (st.channels * st.bits / 8) *
          (st.channels * st.bits / 8)) →
        (maru_write o onb st size).submitted =
          some (min size (o.writeAvail / (st.channels * st.bits / 8) *
            (st.channels * st.bits / 8)))
        ∧ (o.hwWrite (min size (o.writeAvail / (st.channels * st.bits / 8) *
              (st.channels * st.bits / 8))) =
            min size (o.writeAvail / (st.channels * st.bits / 8) *
              (st.channels * st.bits / 8)) →
           (maru_write o onb st size).reply =
             .wrote (min size (o.writeAvail / (st.channels * st.bits / 8) *
               (st.channels * st.bits / 8))))) := by
  obtain ⟨st1, hst1, hch, hbi, hnb1, herr1, hwc1, hbd1⟩ := bind_step_spec o st hbound
  have hnonblock : (onb || st1.nonblock) = true := by
    rcases hnb with h | h <;> simp [h, hnb1]
  have hw : maru_write o onb st size =
      (let to_write := min size (o.writeAvail / (st.channels * st.bits / 8) *
        (st.channels * st.bits / 8))
      if to_write = 0 then ⟨st1, none, .err EAGAIN⟩
      else
        let ret := o.hwWrite to_write
        if ret = 0 then ⟨st1, some to_write, .err EIO⟩
        else ⟨{ st1 with write_cnt := st1.write_cnt + ret }, some to_write,
              .wrote ret⟩) := by
    rw [maru_write]
    simp only [herr, Bool.false_eq_true, if_false, Nat.pos_iff_ne_zero.mp hsz,
      if_false, hst1, hnonblock, if_true, hch, hbi, ite_gt_eq_min]
  constructor
  · intro h0
    simp [hw, h0]
  · intro hpos
    have hne : ¬(min size (o.writeAvail / (st.channels * st.bits / 8) *
        (st.channels * st.bits / 8)) = 0) := by omega
    constructor
    · simp only [hw, hne, if_false]
      split <;> rfl
    · intro hacc
      simp [hw, hne, hacc]

/-- C1 witness: the hypotheses of `nonblocking_write_clamps` hold at a
concrete bound slot with 100 requested bytes and 4096 bytes of transport
space, and there the call submits and reports exactly 100 bytes. -/
theorem nonblocking_write_clamps_witness :
    exBound.error = false ∧ 0 < 100 ∧
    (maru_write exAcceptAll true exBound 100).submitted = some 100 ∧
    (maru_write exAcceptAll true exBound 100).reply = .wrote 100 := by
  have h := nonblocking_write_clamps exAcceptAll true exBound 100 rfl
    (by decide) (Or.inl rfl) (Or.inl (by decide))
  refine ⟨rfl, by decide, ?_, ?_⟩
  · have := (h.2 (by decide)).1
    simpa using this
  · have := (h.2 (by decide)).2 (by decide)
    simpa using this

/-! ### C2 -/

/-- Characterization of `maru_write` on a bound, non-errored slot with a
non-empty buffer: the submission size is the non-blocking clamp or the full
size, and the reply follows the transport's accepted count. -/
theorem maru_write_bound_eq (o : WriteOracle) (onb : Bool) (st : StreamInfo)
    (size : Nat) (hb : st.stream ≠ none) (herr : st.error = false)
    (hsz : 0 < size) :
    maru_write o onb st size =
      if (if (onb || st.nonblock) = true then
            min size (o.writeAvail / (st.channels * st.bits / 8) *
              (st.channels * st.bits / 8))
          else size) = 0 then ⟨st, none, .err EAGAIN⟩
      else if o.hwWrite (if (onb || st.nonblock) = true then
            min size (o.writeAvail / (st.channels * st.bits / 8) *
              (st.channels * st.bits / 8))
          else size) = 0 then
        ⟨st, some (if (onb || st.nonblock) = true then
            min size (o.writeAvail / (st.channels * st.bits / 8) *
              (st.channels * st.bits / 8))
          else size), .err EIO⟩
      else
        ⟨{ st with write_cnt := st.write_cnt +
            (o.hwWrite (if (onb || st.nonblock) = true then
              min size (o.writeAvail / (st.channels * st.bits / 8) *
                (st.channels * st.bits / 8))
            else size)) },
         some (if (onb || st.nonblock) = true then
            min size (o.writeAvail / (st.channels * st.bits / 8) *
              (st.channels * st.bits / 8))
          else size),
         .wrote (o.hwWrite (if (onb || st.nonblock) = true then
            min size (o.writeAvail / (st.channels * st.bits / 8) *
              (st.channels * st.bits / 8))
          else size))⟩ := by
  rw [maru_write]
  simp only [herr, Bool.false_eq_true, if_false, Nat.pos_iff_ne_zero.mp hsz,
    hb, ite_gt_eq_min]

/-- C2 counterexample: at a concrete bound, non-errored slot, a zero-byte
transport result replies `EIO` but leaves the error flag clear, and the next
write on the very same slot succeeds instead of failing with `EPIPE` —
refuting the claim that a zero-byte result marks the slot errored and makes
every subsequent write fail. -/
theorem write_zero_result_not_terminal_cex :
    (maru_write exAcceptNone false exBound 16).reply = .err EIO
    ∧ (maru_write exAcceptNone false exBound 16).st.error = false
    ∧ (maru_write exAcceptAll false
        (maru_write exAcceptNone false exBound 16).st 16).reply = .wrote 16
    ∧ (maru_write exAcceptAll false
        (maru_write exAcceptNone false exBound 16).st 16).reply ≠
        .err EPIPE := by
  decide

/-- C2 (amended): on a bound, non-errored slot, a zero-byte transport result
is reported as an I/O error (`EIO`) and leaves the slot — in particular its
error flag — unchanged, so the slot does not become errored; a positive
transport result increments `write_cnt` by exactly that amount and the call
returns exactly the accepted count; writes fail with `EPIPE` exactly on
slots whose error flag is already set. -/
theorem write_zero_result_not_sticky (o : WriteOracle) (onb : Bool)
    (st : StreamInfo) (size tw : Nat)
    (hb : st.stream ≠ none) (herr : st.error = false) (hsz : 0 < size)
    (htw : tw = if (onb || st.nonblock) = true then
        min size (o.writeAvail / (st.channels * st.bits / 8) *
          (st.channels * st.bits / 8))
      else size)
    (hpos : 0 < tw) :
    (o.hwWrite tw = 0 → (maru_write o onb st size).st = st ∧
      (maru_write o onb st size).reply = .err EIO)
    ∧ (0 < o.hwWrite tw →
      (maru_write o onb st size).st =
        { st with write_cnt := st.write_cnt + o.hwWrite tw } ∧
      (maru_write o onb st size).reply = .wrote (o.hwWrite tw))
    ∧ (∀ st' : StreamInfo, st'.error = true →
        maru_write o onb st' size = ⟨st', none, .err EPIPE⟩) := by
  have hw := maru_write_bound_eq o onb st size hb herr hsz
  rw [← htw] at hw
  have hne : ¬(tw = 0) := by omega
  refine ⟨fun h0 => ?_, fun hp => ?_, fun st' h => ?_⟩
  · simp [hw, hne, h0]
  · have : ¬(o.hwWrite tw = 0) := by omega
    simp [hw, hne, this]
  · rw [maru_write]
    simp [h]

/-- C2 witness: the amended-claim hypotheses hold at a concrete bound slot
with a transport that accepts zero bytes, and there the write replies `EIO`
with the slot unchanged. -/
theorem write_zero_result_not_sticky_witness :
    exBound.stream ≠ none ∧ exBound.error = false ∧ (0:Nat) < 16 ∧
    (maru_write exAcceptNone false exBound 16).st = exBound ∧
    (maru_write exAcceptNone false exBound 16).reply = .err EIO := by
  have h := write_zero_result_not_sticky exAcceptNone false exBound 16 16
    (by decide) rfl (by decide) (by decide) (by decide)
  exact ⟨by decide, rfl, by decide, (h.1 rfl).1, (h.1 rfl).2⟩

/-! ### C3 / C4 -/

/-- C3: a set-fragment request on an unbound slot whose decoded geometry is
valid (`fragment_size = 1 << (i & 0xffff)` at least 512 and
`fragment_count = (i >> 16) & 0xffff` at least 2) succeeds, echoing the
request word; the stored `fragsize` is the decoded size unchanged, and the
stored `frags` is `next_pot` of the requested count — a power of two that is
at least the requested count and less than twice it (i.e. the next power of
two up from the request). -/
theorem setfragment_valid (st : StreamInfo) (i : Nat)
    (hub : st.stream = none)
    (hfs : 512 ≤ 1 <<< (i &&& 0xffff))
    (hfc : 2 ≤ (i >>> 16) &&& 0xffff) :
    (dsp_setfragment st i).2 = .retWord i
    ∧ (dsp_setfragment st i).1.fragsize = 1 <<< (i &&& 0xffff)
    ∧ (dsp_setfragment st i).1.frags = next_pot ((i >>> 16) &&& 0xffff)
    ∧ (∃ k, (dsp_setfragment st i).1.frags = 2 ^ k)
    ∧ (i >>> 16) &&& 0xffff ≤ (dsp_setfragment st i).1.frags
    ∧ (dsp_setfragment st i).1.frags < 2 * ((i >>> 16) &&& 0xffff) := by
  have hval : ¬(1 <<< (i &&& 0xffff) < 512 ∨ (i >>> 16) &&& 0xffff < 2) := by
    push_neg
    exact ⟨hfs, hfc⟩
  have hres : dsp_setfragment st i =
      ({ st with fragsize := 1 <<< (i &&& 0xffff),
                 frags := next_pot ((i >>> 16) &&& 0xffff) }, .retWord i) := by
    simp [dsp_setfragment, hub, hval]
  have hfc1 : 1 < (i >>> 16) &&& 0xffff := hfc
  have hle : (i >>> 16) &&& 0xffff ≤ 2 ^ Nat.clog 2 ((i >>> 16) &&& 0xffff) :=
    Nat.le_pow_clog one_lt_two _
  have hlt : 2 ^ (Nat.clog 2 ((i >>> 16) &&& 0xffff) - 1) <
      (i >>> 16) &&& 0xffff := Nat.pow_pred_clog_lt_self one_lt_two hfc1
  have hkpos : 0 < Nat.clog 2 ((i >>> 16) &&& 0xffff) :=
    Nat.clog_pos one_lt_two hfc
  have hsplit : 2 ^ Nat.clog 2 ((i >>> 16) &&& 0xffff) =
      2 ^ (Nat.clog 2 ((i >>> 16) &&& 0xffff) - 1) * 2 := by
    rw [← pow_succ]
    congr 1
    omega
  refine ⟨by simp [hres], by simp [hres], by simp [hres],
    ⟨Nat.clog 2 ((i >>> 16) &&& 0xffff), by simp [hres, next_pot]⟩, ?_, ?_⟩
  · simp only [hres, next_pot]
    exact hle
  · simp only [hres, next_pot]
    omega

/-- C3 witness: the packed word `(4 << 16) | 11` (requesting 4 fragments of
`1 << 11 = 2048` bytes) on a concrete unbound slot satisfies the validity
hypotheses, succeeds, stores `fragsize = 2048` verbatim, and stores
`frags = 4` (already a power of two). -/
theorem setfragment_valid_witness :
    exUnbound.stream = none ∧ 512 ≤ 1 <<< ((262155:Nat) &&& 0xffff)
    ∧ 2 ≤ ((262155:Nat) >>> 16) &&& 0xffff
    ∧ (dsp_setfragment exUnbound 262155).2 = .retWord 262155
    ∧ (dsp_setfragment exUnbound 262155).1.fragsize = 2048
    ∧ (dsp_setfragment exUnbound 262155).1.frags = 4 := by
  have h := setfragment_valid exUnbound 262155 rfl (by decide) (by decide)
  refine ⟨rfl, by decide, by decide, h.1, ?_, ?_⟩
  · rw [h.2.1]
    decide
  · rw [h.2.2.1]
    have h4 : ((262155:Nat) >>> 16) &&& 0xffff = 4 := by decide
    rw [h4]
    show next_pot 4 = 4
    have hp : (4:Nat) = 2 ^ 2 := by norm_num
    rw [next_pot, hp, Nat.clog_pow 2 2 one_lt_two]

/-- C4: a set-fragment request on a bound slot, or one whose decoded
geometry is invalid (`fragment_size < 512` or `fragment_count < 2`), fails
with `EINVAL` and leaves the slot — in particular its fragment geometry —
completely unchanged. -/
theorem setfragment_reject (st : StreamInfo) (i : Nat)
    (h : st.stream ≠ none ∨ 1 <<< (i &&& 0xffff) < 512 ∨
      (i >>> 16) &&& 0xffff < 2) :
    dsp_setfragment st i = (st, .err EINVAL) := by
  by_cases hb : st.stream = none
  · rcases h with h | h
    · exact absurd hb h
    · simp only [dsp_setfragment]
      rw [if_neg (by simp [hb]), if_pos h]
  · simp only [dsp_setfragment]
    rw [if_pos hb]

/-- C4 witness: a set-fragment request with valid geometry on a concrete
bound slot fails with `EINVAL` and leaves the slot unchanged. -/
theorem setfragment_reject_witness :
    exBound.stream ≠ none ∧
    dsp_setfragment exBound 262155 = (exBound, .err EINVAL) :=
  ⟨by decide, setfragment_reject exBound 262155 (Or.inl (by decide))⟩

/-! ### C5 -/

/-- C5: get-output-space never mutates the slot; on an unbound slot it
reports `bytes = fragsize * frags - 1` and `fragments = bytes / fragsize`,
on a bound slot it reports the transport's live availability as `bytes` and
that divided by `fragsize` as `fragments`; in both cases the reply carries
the configured `fragsize` and `frags`. -/
theorem getospace_reports (writeAvail : Nat) (st : StreamInfo) :
    (dsp_getospace writeAvail st).1 = st
    ∧ (st.stream = none →
        (dsp_getospace writeAvail st).2 =
          .retOspace (st.fragsize * st.frags - 1)
            ((st.fragsize * st.frags - 1) / st.fragsize)
            st.fragsize st.frags)
    ∧ (st.stream ≠ none →
        (dsp_getospace writeAvail st).2 =
          .retOspace writeAvail (writeAvail / st.fragsize)
            st.fragsize st.frags) := by
  refine ⟨rfl, fun h => ?_, fun h => ?_⟩ <;> simp [dsp_getospace, h]

/-- C5 witness: the spec's scenario — an unbound slot configured with
`frags = 8`, `fragsize = 2048` reports `bytes = 16383` and
`fragments = 7`. -/
theorem getospace_reports_witness :
    exUnbound.stream = none ∧
    (dsp_getospace 0 exUnbound).2 = .retOspace 16383 7 2048 8 := by
  have h := (getospace_reports 0 exUnbound).2.1 rfl
  refine ⟨rfl, ?_⟩
  rw [h]
  decide

/-! ### C6 -/

/-- The volume clamp of `set_volume` (whose first branch also tests
`percent > 0`) agrees with the plain clamp-into-`[min,max]` for positive
percents, and yields the mute value (which never exceeds `max`) at zero. -/
theorem clamp_eq (minv maxv mute N v : Int) (hmu : mute ≤ maxv) :
    (if (if v > 0 then N else mute) < minv ∧ v > 0 then minv
     else if (if v > 0 then N else mute) > maxv then maxv
     else (if v > 0 then N else mute)) =
      (if v > 0 then (if N < minv then minv else if N > maxv then maxv else N)
       else mute) := by
  by_cases h : v > 0
  · simp [h]
  · have hnm : ¬(mute > maxv) := not_lt.mpr hmu
    simp [h, hnm]

/-- A value clamped into `[min, max]` lies in `[min, max]`. -/
theorem clamp_bounds (minv maxv N : Int) (hmm : minv ≤ maxv) :
    minv ≤ (if N < minv then minv else if N > maxv then maxv else N)
    ∧ (if N < minv then minv else if N > maxv then maxv else N) ≤ maxv := by
  split_ifs <;> omega

/-- C6: set-play-volume takes the low byte `p` of the packed word as the
level; the native volume submitted to the transport is
`(max*p + min*(100-p)) tdiv 100` clamped into `[min, max]` for `p > 0`, and
the explicit mute value for `p = 0`; for `p > 0` the submitted value lies in
`[min, max]`.  On transport failure the handler fails with `EIO` and leaves
the stored volume unchanged; on success it replies with the packed word
`(p << 8) | p`.  (`tdiv` is C's truncating division.) -/
theorem setplayvol_contract (minv maxv mute : Int) (hwOk : Bool)
    (st : StreamInfo) (i lk : Nat) (p : Nat) (native : Int)
    (hmm : minv ≤ maxv) (hmu : mute ≤ maxv)
    (hp : p = i &&& 0xff)
    (hnat : native = if (p : Int) > 0 then
        (if (maxv * p + minv * (100 - (p : Int))).tdiv 100 < minv then minv
         else if (maxv * p + minv * (100 - (p : Int))).tdiv 100 > maxv
           then maxv
         else (maxv * p + minv * (100 - (p : Int))).tdiv 100)
      else mute) :
    (dsp_setplayvol minv maxv mute hwOk st i lk).submitted = some native
    ∧ (0 < p → minv ≤ native ∧ native ≤ maxv)
    ∧ (hwOk = false →
        (dsp_setplayvol minv maxv mute hwOk st i lk).reply = .err EIO
        ∧ (dsp_setplayvol minv maxv mute hwOk st i lk).st.vol = st.vol)
    ∧ (hwOk = true →
        (dsp_setplayvol minv maxv mute hwOk st i lk).reply =
          .retWord ((p <<< 8) ||| p)) := by
  subst hp
  subst hnat
  cases hwOk with
  | false =>
    refine ⟨?_, fun hpp => ?_, fun _ => ⟨rfl, rfl⟩, fun h => ?_⟩
    · show some _ = some _
      rw [clamp_eq _ _ _ _ _ hmu]
    · have hppz : (0:Int) < ((i &&& 0xff : Nat) : Int) := by exact_mod_cast hpp
      rw [if_pos hppz]
      exact clamp_bounds _ _ _ hmm
    · exact Bool.noConfusion h
  | true =>
    refine ⟨?_, fun hpp => ?_, fun h => ?_, fun _ => rfl⟩
    · show some _ = some _
      rw [clamp_eq _ _ _ _ _ hmu]
    · have hppz : (0:Int) < ((i &&& 0xff : Nat) : Int) := by exact_mod_cast hpp
      rw [if_pos hppz]
      exact clamp_bounds _ _ _ hmm
    · exact Bool.noConfusion h

/-- C6 witness: the spec's scenario — low byte 50 with `min = 0`,
`max = 1000` submits native volume 500 and replies `(50 << 8) | 50`. -/
theorem setplayvol_contract_witness :
    (0:Int) ≤ 1000 ∧ (-8192:Int) ≤ 1000 ∧
    (dsp_setplayvol 0 1000 (-8192) true exBound 50 0).submitted = some 500 ∧
    (dsp_setplayvol 0 1000 (-8192) true exBound 50 0).reply =
      .retWord 12850 := by
  have h := setplayvol_contract 0 1000 (-8192) true exBound 50 0 50 500
    (by decide) (by decide) (by decide) (by decide)
  have hr := h.2.2.2 rfl
  refine ⟨by decide, by decide, h.1, ?_⟩
  rw [hr]
  decide

/-! ### C7 -/

/-- C7: every poll call replaces the stored poll handle with the new one and
hands back exactly the previously stored handle for destruction; the slot is
otherwise unchanged.  The synchronous reply is `POLLHUP` when the error flag
is set, `POLLOUT` when the slot is unbound or the transport's availability
is at least one fragment, and 0 (not ready) otherwise — in particular an
unbound non-errored slot always polls writable. -/
theorem poll_contract (writeAvail : Nat) (st : StreamInfo) (ph : Option Nat) :
    (maru_poll writeAvail st ph).st = { st with ph := ph }
    ∧ (maru_poll writeAvail st ph).destroyed = st.ph.toList
    ∧ (st.error = true → (maru_poll writeAvail st ph).reply = POLLHUP)
    ∧ (st.error = false → st.stream = none ∨ st.fragsize ≤ writeAvail →
        (maru_poll writeAvail st ph).reply = POLLOUT)
    ∧ (st.error = false → st.stream ≠ none → writeAvail < st.fragsize →
        (maru_poll writeAvail st ph).reply = 0)
    ∧ (st.error = false → st.stream = none →
        (maru_poll writeAvail st ph).reply = POLLOUT) := by
  have hupd : maru_update_pollhandle st ph = ({ st with ph := ph }, st.ph.toList) := by
    rw [maru_update_pollhandle]
    cases st.ph <;> rfl
  have hw : maru_poll writeAvail st ph =
      (if st.error = true then
        ⟨{ st with ph := ph }, st.ph.toList, POLLHUP⟩
      else if st.stream = none ∨ writeAvail ≥ st.fragsize then
        ⟨{ st with ph := ph }, st.ph.toList, POLLOUT⟩
      else ⟨{ st with ph := ph }, st.ph.toList, 0⟩) := by
    rw [maru_poll, hupd]
  refine ⟨?_, ?_, fun herr => ?_, fun herr hrdy => ?_, fun herr hb hlt => ?_,
    fun herr hub => ?_⟩
  · rw [hw]
    split_ifs <;> rfl
  · rw [hw]
    split_ifs <;> rfl
  · simp [hw, herr]
  · rw [hw, if_neg (by simp [herr]), if_pos hrdy]
  · rw [hw, if_neg (by simp [herr]), if_neg (by push_neg; exact ⟨hb, hlt⟩)]
  · rw [hw, if_neg (by simp [herr]), if_pos (Or.inl hub)]

/-- C7 witness: polling an unbound, non-errored slot that already holds the
poll handle 3, with the new handle 7, installs handle 7, destroys handle 3,
and replies writable immediately. -/
theorem poll_contract_witness :
    ({ exUnbound with ph := some 3 } : StreamInfo).error = false ∧
    ({ exUnbound with ph := some 3 } : StreamInfo).stream = none ∧
    (maru_poll 0 { exUnbound with ph := some 3 } (some 7)).st.ph = some 7 ∧
    (maru_poll 0 { exUnbound with ph := some 3 } (some 7)).destroyed = [3] ∧
    (maru_poll 0 { exUnbound with ph := some 3 } (some 7)).reply = POLLOUT := by
  have h := poll_contract 0 { exUnbound with ph := some 3 } (some 7)
  exact ⟨rfl, rfl, by rw [h.1], h.2.1, h.2.2.2.2.2 rfl rfl⟩

/-! ### C8 -/

/-- C8 counterexample: on a concrete unbound slot (stream handle is the
sentinel), release still issues a transport close call — with the sentinel
master handle as argument — refuting the claim that no hardware-stream close
is issued when the slot is unbound. -/
theorem release_closes_unconditionally_cex :
    exUnbound.stream = none ∧
    (maru_release exUnbound).closed = [none] ∧
    (maru_release exUnbound).closed ≠ [] := by
  decide

/-- C8 (amended): release always issues exactly one transport close call, on
the slot's current stream handle — which is the sentinel master value when
the slot is unbound; it destroys the outstanding poll handle if any, resets
the entire slot record to its zero-initialized unbound state (including
clearing `active`), and always reports success. -/
theorem release_resets (st : StreamInfo) :
    (maru_release st).closed = [st.stream]
    ∧ (maru_release st).destroyed = st.ph.toList
    ∧ (maru_release st).st = StreamInfo.zero
    ∧ (maru_release st).st.active = false
    ∧ (maru_release st).st.stream = none
    ∧ (maru_release st).st.write_cnt = 0
    ∧ (maru_release st).errno = 0 := by
  refine ⟨rfl, ?_, rfl, rfl, rfl, rfl, rfl⟩
  simp only [maru_release]
  cases st.ph <;> rfl

/-! ### C9 -/

/-- Whatever slot the lazy-binding step of `maru_write` produces carries the
original slot's `write_cnt`. -/
theorem bind_step_write_cnt (o : WriteOracle) (st st1 : StreamInfo)
    (h : (if st.stream = none then init_stream o st else some st) = some st1) :
    st1.write_cnt = st.write_cnt := by
  by_cases hb : st.stream = none
  · rw [if_pos hb] at h
    unfold init_stream at h
    cases hf : o.findStream with
    | none =>
      rw [hf] at h
      exact absurd h (by simp)
    | some s =>
      rw [hf] at h
      dsimp only at h
      by_cases ho : o.openOk = true
      · rw [if_pos ho] at h
        injection h with h2
        rw [← h2]
      · rw [if_neg ho] at h
        cases h
  · rw [if_neg hb] at h
    injection h with h2
    rw [← h2]

/-- A write never decreases `write_cnt`. -/
theorem maru_write_write_cnt_le (o : WriteOracle) (nb : Bool)
    (st : StreamInfo) (size : Nat) :
    st.write_cnt ≤ (maru_write o nb st size).st.write_cnt := by
  rw [maru_write]
  split
  · exact Nat.le_refl _
  · split
    · exact Nat.le_refl _
    · split
      · exact Nat.le_refl _
      · rename_i st1 heq
        have hwc := bind_step_write_cnt o st st1 heq
        dsimp only
        repeat' split
        all_goals try dsimp only
        all_goals omega

/-- C9: for every modelled operation, either `write_cnt` does not decrease —
and for write operations it never decreases, each successful write adding
its positive accepted count — or the operation is reset/halt or release, the
only two that set it back, and then the new count is exactly zero. -/
theorem write_cnt_monotone (op : Op) (st : StreamInfo) :
    (st.write_cnt ≤ (step op st).write_cnt
      ∨ ((op = .reset ∨ op = .release) ∧ (step op st).write_cnt = 0))
    ∧ (∀ o nb sz, st.write_cnt ≤ (step (.write o nb sz) st).write_cnt) := by
  refine ⟨?_, fun o nb sz => maru_write_write_cnt_le o nb st sz⟩
  cases op with
  | write o nb sz => exact Or.inl (maru_write_write_cnt_le o nb st sz)
  | reset =>
    by_cases hb : st.stream = none
    · exact Or.inl (by simp [step, dsp_reset, hb])
    · exact Or.inr ⟨Or.inl rfl, by simp [step, dsp_reset, hb]⟩
  | setfragment i =>
    refine Or.inl ?_
    simp only [step, dsp_setfragment]
    split_ifs <;> simp
  | getospace avail => exact Or.inl (Nat.le_refl _)
  | setnonblock => exact Or.inl (Nat.le_refl _)
  | setplayvol minv maxv mute hwOk i =>
    refine Or.inl ?_
    simp only [step, dsp_setplayvol, set_volume]
    cases hwOk <;> simp
  | getplayvol minv maxv hwRes =>
    refine Or.inl ?_
    simp only [step, dsp_getplayvol, read_volume]
    cases hwRes <;> simp
  | poll avail ph =>
    refine Or.inl ?_
    simp only [step, maru_poll, maru_update_pollhandle]
    cases st.ph <;> split_ifs <;> simp
  | release => exact Or.inr ⟨Or.inr rfl, rfl⟩

/-- C9 witness: the monotonicity statement instantiated at a reset on a
concrete bound slot whose `write_cnt` is positive: the count drops to zero
and the operation is reset. -/
theorem write_cnt_monotone_witness :
    ({ exBound with write_cnt := 4096 } : StreamInfo).write_cnt ≤
        (step Op.reset { exBound with write_cnt := 4096 }).write_cnt
      ∨ ((Op.reset = Op.reset ∨ Op.reset = Op.release)
        ∧ (step Op.reset { exBound with write_cnt := 4096 }).write_cnt = 0) :=
  (write_cnt_monotone Op.reset { exBound with write_cnt := 4096 }).1

/-! ### C10 -/

/-- C10 (code bug): at the concrete failing inputs — a set-play-volume whose
transport volume call fails, and a get-play-volume whose volume query fails —
the handlers reply `EIO` while the global mutex is still held (depth 1 on
return from depth 0), whereas the corresponding success paths return with
the mutex released (depth 0); the source's error paths `break` out of the
switch without `pthread_mutex_unlock`. -/
theorem volume_ioctl_lock_leak :
    (dsp_setplayvol 0 1000 (-8192) false exBound 50 0).lock = 1
    ∧ (dsp_setplayvol 0 1000 (-8192) false exBound 50 0).reply = .err EIO
    ∧ (dsp_getplayvol 0 1000 none exBound 0).lock = 1
    ∧ (dsp_getplayvol 0 1000 none exBound 0).reply = .err EIO
    ∧ (dsp_setplayvol 0 1000 (-8192) true exBound 50 0).lock = 0
    ∧ (dsp_getplayvol 0 1000 (some 500) exBound 0).lock = 0 := by
  decide

end CuseMaru
